import Mathlib

/-!
Verification of the mock migration / rollback / integrity-check primitive
found in the repository's migration-validation test suite
(`performMockMigration`, `performMockRollback`, `calculateMockChecksum`).

The filesystem is modelled shallowly: a path is its list of components
(`path.join dir name` for the slash-free entry names returned by
`readdirSync` is exactly `dir ++ [name]`), and a filesystem is an
association list from paths to nodes.  The `fs.accessSync` write probe is
modelled by an explicit `targetWritable` flag and the wall clock by an
explicit `now` parameter.  Filesystem calls that throw in Node.js
(`statSync` on a missing entry, `readFileSync` on a directory,
`unlinkSync` on a directory) are modelled by returning the error message
that the surrounding `try`/`catch` would capture.
-/

set_option maxHeartbeats 1000000

namespace MigrationTool

/-- A filesystem node: a regular file carrying its content and its
access/modification times, or a directory. -/
inductive Node where
  | file (content : String) (atime mtime : Nat)
  | dir
deriving DecidableEq

/-- A path, as its list of components. -/
abbrev FsPath := List String

/-- A filesystem: an association list from paths to nodes. -/
abbrev Fs := List (FsPath × Node)

/-- Look up the node stored at a path (first matching entry). -/
def lookupFs : Fs → FsPath → Option Node
  | [], _ => none
  | (q, nd) :: rest, p => if q = p then some nd else lookupFs rest p

/-- Model of `fs.existsSync`. -/
def existsFs (fs : Fs) (p : FsPath) : Bool :=
  (lookupFs fs p).isSome

/-- Model of `fs.writeFileSync`: replace the node stored at `p`, or append
a fresh entry when the path is absent; the new file's times are the clock. -/
def writeFile : Fs → FsPath → String → Nat → Fs
  | [], p, c, now => [(p, Node.file c now now)]
  | (q, nd) :: rest, p, c, now =>
    if q = p then (p, Node.file c now now) :: rest
    else (q, nd) :: writeFile rest p c now

/-- Model of `fs.utimesSync`: update the stored times of the node at `p`. -/
def utimesFs : Fs → FsPath → Nat → Nat → Fs
  | [], _, _, _ => []
  | (q, nd) :: rest, p, a, m =>
    if q = p then
      (q, match nd with
          | Node.file c _ _ => Node.file c a m
          | Node.dir => Node.dir) :: utimesFs rest p a m
    else (q, nd) :: utimesFs rest p a m

/-- Model of `fs.unlinkSync`: remove the entry stored at `p`. -/
def unlinkFs : Fs → FsPath → Fs
  | [], _ => []
  | (q, nd) :: rest, p =>
    if q = p then unlinkFs rest p else (q, nd) :: unlinkFs rest p

/-- The name of `p` as an immediate child of directory `d`, when it is one. -/
def childName : FsPath → FsPath → Option String
  | [], [f] => some f
  | [], [] => none
  | [], _ :: _ :: _ => none
  | _ :: _, [] => none
  | d :: ds, c :: cs => if c = d then childName ds cs else none

/-- Model of `fs.readdirSync`: the entry names directly inside `d`. -/
def readdirFs (fs : Fs) (d : FsPath) : List String :=
  fs.filterMap (fun e => childName d e.1)

/-- `MigrationOptions` from the source; absent options default to false. -/
structure MigrationOptions where
  preserveOriginal : Bool := false
  createRollbackInfo : Bool := false
  enableIntegrityChecks : Bool := false
  skipOnError : Bool := false
  retry : Bool := false
  preserveMetadata : Bool := false
deriving DecidableEq

/-- `RollbackInfo` from the source. -/
structure RollbackInfo where
  sourceDir : FsPath
  targetDir : FsPath
  migratedFiles : List String
  timestamp : String
deriving DecidableEq

/-- `IntegrityCheckResult` from the source; the insertion-ordered
JavaScript `Map` is an association list. -/
structure IntegrityCheckResult where
  fileCount : Nat
  allChecksPassed : Bool
  checksums : List (String × String)
deriving DecidableEq

/-- `MigrationResult` from the source. -/
structure MigrationResult where
  success : Bool
  error : Option String := none
  rollbackInfo : Option RollbackInfo := none
  integrityChecks : Option IntegrityCheckResult := none
deriving DecidableEq

/-- Reduce an integer to JavaScript's signed 32-bit range (`ToInt32`). -/
def toInt32 (n : Int) : Int :=
  let m := n % (2 ^ 32 : Int)
  if m < 2 ^ 31 then m else m - 2 ^ 32

/-- One step of `calculateMockChecksum`:
`hash = ((hash << 5) - hash) + code` forced back to 32 bits by `hash & hash`. -/
def checksumStep (hash : Int) (code : Nat) : Int :=
  toInt32 (toInt32 (hash * 32) - hash + code)

/-- `calculateMockChecksum` from the source: the JavaScript additive hash of
the content's code units, rendered the way `Number.prototype.toString(16)`
renders an int32 (lower-case hex, minus sign for negatives). -/
def calculateMockChecksum (content : String) : String :=
  let h := content.data.foldl (fun acc c => checksumStep acc c.toNat) 0
  if h < 0 then "-" ++ String.mk (Nat.toDigits 16 h.natAbs)
  else String.mk (Nat.toDigits 16 h.toNat)

/-- JavaScript `Map.prototype.set`: update an existing key in place or
append a new one. -/
def setMap : List (String × String) → String → String → List (String × String)
  | [], k, v => [(k, v)]
  | (k', v') :: rest, k, v =>
    if k' = k then (k, v) :: rest else (k', v') :: setMap rest k v

/-- JavaScript `Map.prototype.get`. -/
def lookupMap : List (String × String) → String → Option String
  | [], _ => none
  | (k', v') :: rest, k => if k' = k then some v' else lookupMap rest k

/-- The mutable state of `performMockMigration`'s per-file loop. -/
structure LoopState where
  fs : Fs
  migratedFiles : List String
  checksums : List (String × String)
deriving DecidableEq

/-- The checksum bookkeeping at the head of the loop body. -/
def recordChecksum (opts : MigrationOptions) (f content : String)
    (ch : List (String × String)) : List (String × String) :=
  if opts.enableIntegrityChecks then setMap ch f (calculateMockChecksum content) else ch

/-- One iteration of `performMockMigration`'s loop for entry `f`: stat the
source entry, record its checksum, skip when the target already holds
byte-identical content, otherwise write (and copy timestamps when
`preserveMetadata`).  A thrown fs error is returned as `some message`. -/
def migrateStep (opts : MigrationOptions) (sourceDir targetDir : FsPath) (now : Nat)
    (f : String) (st : LoopState) : LoopState × Option String :=
  match lookupFs st.fs (sourceDir ++ [f]) with
  | none => (st, some "ENOENT: no such file or directory, stat")
  | some Node.dir => (st, none)
  | some (Node.file content a m) =>
    let ch := recordChecksum opts f content st.checksums
    match lookupFs st.fs (targetDir ++ [f]) with
    | some Node.dir =>
      ({ st with checksums := ch }, some "EISDIR: illegal operation on a directory, read")
    | some (Node.file existing _ _) =>
      if existing = content then
        ({ st with checksums := ch }, none)
      else
        let fs1 := writeFile st.fs (targetDir ++ [f]) content now
        let fs2 := if opts.preserveMetadata then utimesFs fs1 (targetDir ++ [f]) a m else fs1
        (⟨fs2, st.migratedFiles ++ [f], ch⟩, none)
    | none =>
      let fs1 := writeFile st.fs (targetDir ++ [f]) content now
      let fs2 := if opts.preserveMetadata then utimesFs fs1 (targetDir ++ [f]) a m else fs1
      (⟨fs2, st.migratedFiles ++ [f], ch⟩, none)

/-- `performMockMigration`'s loop over the source directory listing; stops
at the first thrown error, keeping the writes already made. -/
def migrateFiles (opts : MigrationOptions) (sourceDir targetDir : FsPath) (now : Nat) :
    List String → LoopState → LoopState × Option String
  | [], st => (st, none)
  | f :: rest, st =>
    match migrateStep opts sourceDir targetDir now f st with
    | (st1, none) => migrateFiles opts sourceDir targetDir now rest st1
    | (st1, some e) => (st1, some e)

/-- `performMockMigration` from the source.  Returns the result object
together with the filesystem after the call. -/
def performMockMigration (fs : Fs) (sourceDir targetDir : FsPath)
    (targetWritable : Bool) (now : Nat) (opts : MigrationOptions) :
    MigrationResult × Fs :=
  if targetWritable then
    match migrateFiles opts sourceDir targetDir now (readdirFs fs sourceDir) ⟨fs, [], []⟩ with
    | (st, some msg) => ({ success := false, error := some msg }, st.fs)
    | (st, none) =>
      ({ success := true
         error := none
         rollbackInfo :=
           if opts.createRollbackInfo then
             some { sourceDir := sourceDir, targetDir := targetDir,
                    migratedFiles := st.migratedFiles, timestamp := toString now }
           else none
         integrityChecks :=
           if opts.enableIntegrityChecks then
             some { fileCount := st.migratedFiles.length, allChecksPassed := true,
                    checksums := st.checksums }
           else none }, st.fs)
  else
    ({ success := false, error := some "permission denied - target directory not writable" }, fs)

/-- `performMockRollback`'s loop: delete each listed file that still exists
at the recorded target directory; `unlinkSync` on a directory throws. -/
def rollbackFiles : Fs → FsPath → List String → Fs × Option String
  | fs, _, [] => (fs, none)
  | fs, t, f :: rest =>
    match lookupFs fs (t ++ [f]) with
    | none => rollbackFiles fs t rest
    | some (Node.file _ _ _) => rollbackFiles (unlinkFs fs (t ++ [f])) t rest
    | some Node.dir => (fs, some "EPERM: operation not permitted, unlink")

/-- `performMockRollback` from the source. -/
def performMockRollback (fs : Fs) (info : RollbackInfo) : MigrationResult × Fs :=
  match rollbackFiles fs info.targetDir info.migratedFiles with
  | (fs1, none) => ({ success := true }, fs1)
  | (fs1, some msg) => ({ success := false, error := some msg }, fs1)

/-- Whether the per-file loop writes entry `f` — the negation of the
source's skip check: the source entry is a regular file and the target
entry is not a byte-identical regular file. -/
def writeNeeded (fs : Fs) (sourceDir targetDir : FsPath) (f : String) : Bool :=
  match lookupFs fs (sourceDir ++ [f]) with
  | some (Node.file c _ _) =>
    match lookupFs fs (targetDir ++ [f]) with
    | some (Node.file c' _ _) => if c' = c then false else true
    | some Node.dir => true
    | none => true
  | some Node.dir => false
  | none => false

/-! ### Basic path and filesystem lemmas -/

theorem append_singleton_inj {s t : FsPath} {f g : String}
    (h : s ++ [f] = t ++ [g]) : s = t ∧ f = g := by
  have hl : s.length = t.length := by
    have h2 := congrArg List.length h
    simpa using h2
  obtain ⟨h1, h2⟩ := List.append_inj h hl
  exact ⟨h1, by simpa using h2⟩

theorem childName_eq_some {d : FsPath} : ∀ {p : FsPath} {f : String},
    childName d p = some f ↔ p = d ++ [f] := by
  induction d with
  | nil =>
    intro p f
    match p with
    | [] => simp [childName]
    | [c] => simp [childName]
    | c :: c2 :: cs => simp [childName]
  | cons d0 ds ih =>
    intro p f
    match p with
    | [] => simp [childName]
    | c :: cs =>
      by_cases hc : c = d0
      · subst hc
        simp [childName, ih]
      · simp [childName, hc]

theorem childName_append (d : FsPath) (f : String) :
    childName d (d ++ [f]) = some f :=
  childName_eq_some.mpr rfl

theorem lookupFs_writeFile (fs : Fs) (p : FsPath) (c : String) (now : Nat) (q : FsPath) :
    lookupFs (writeFile fs p c now) q =
      if q = p then some (Node.file c now now) else lookupFs fs q := by
  induction fs with
  | nil =>
    by_cases h : q = p
    · subst h; simp [writeFile, lookupFs]
    · simp [writeFile, lookupFs, h, Ne.symm h]
  | cons e rest ih =>
    obtain ⟨q0, nd⟩ := e
    by_cases h1 : q0 = p
    · subst h1
      by_cases h2 : q0 = q
      · subst h2; simp [writeFile, lookupFs]
      · simp [writeFile, lookupFs, h2, Ne.symm h2]
    · by_cases h2 : q0 = q
      · subst h2
        have hq : ¬(q0 = p) := h1
        simp [writeFile, lookupFs, hq, Ne.symm hq]
      · simp [writeFile, lookupFs, h1, h2, ih]

theorem lookupFs_utimesFs (fs : Fs) (p : FsPath) (a m : Nat) (q : FsPath) :
    lookupFs (utimesFs fs p a m) q =
      if q = p then
        Option.map (fun nd => match nd with
          | Node.file c _ _ => Node.file c a m
          | Node.dir => Node.dir) (lookupFs fs p)
      else lookupFs fs q := by
  induction fs with
  | nil => simp [utimesFs, lookupFs]
  | cons e rest ih =>
    obtain ⟨q0, nd⟩ := e
    by_cases h1 : q0 = p
    · subst h1
      by_cases h2 : q0 = q
      · subst h2; simp [utimesFs, lookupFs]
      · simp [utimesFs, lookupFs, h2, Ne.symm h2, ih]
    · by_cases h2 : q0 = q
      · subst h2
        simp [utimesFs, lookupFs, h1, Ne.symm h1]
      · simp [utimesFs, lookupFs, h1, h2, ih]

theorem lookupFs_unlinkFs (fs : Fs) (p : FsPath) (q : FsPath) :
    lookupFs (unlinkFs fs p) q = if q = p then none else lookupFs fs q := by
  induction fs with
  | nil => simp [unlinkFs, lookupFs]
  | cons e rest ih =>
    obtain ⟨q0, nd⟩ := e
    by_cases h1 : q0 = p
    · subst h1
      by_cases h2 : q0 = q
      · subst h2; simp [unlinkFs, lookupFs, ih]
      · simp [unlinkFs, lookupFs, h2, Ne.symm h2, ih]
    · by_cases h2 : q0 = q
      · subst h2
        simp [unlinkFs, lookupFs, h1, Ne.symm h1]
      · simp [unlinkFs, lookupFs, h1, h2, ih]

theorem lookupFs_mem {fs : Fs} {p : FsPath} {nd : Node}
    (h : lookupFs fs p = some nd) : (p, nd) ∈ fs := by
  induction fs with
  | nil => simp [lookupFs] at h
  | cons e rest ih =>
    obtain ⟨q0, nd0⟩ := e
    by_cases h1 : q0 = p
    · subst h1
      simp [lookupFs] at h
      simp [h]
    · simp [lookupFs, h1] at h
      simp [ih h]

theorem mem_lookupFs_isSome {fs : Fs} {p : FsPath} {nd : Node}
    (h : (p, nd) ∈ fs) : (lookupFs fs p).isSome := by
  induction fs with
  | nil => simp at h
  | cons e rest ih =>
    obtain ⟨q0, nd0⟩ := e
    by_cases h1 : q0 = p
    · subst h1; simp [lookupFs]
    · simp [lookupFs, h1]
      rcases List.mem_cons.mp h with h2 | h2
      · exact absurd (congrArg Prod.fst h2).symm h1
      · exact ih h2

theorem mem_readdirFs {fs : Fs} {d : FsPath} {f : String} :
    f ∈ readdirFs fs d ↔ ∃ nd, (d ++ [f], nd) ∈ fs := by
  unfold readdirFs
  rw [List.mem_filterMap]
  constructor
  · rintro ⟨⟨p, nd⟩, hmem, hcn⟩
    have hp := childName_eq_some.mp hcn
    exact ⟨nd, hp ▸ hmem⟩
  · rintro ⟨nd, hmem⟩
    exact ⟨(d ++ [f], nd), hmem, childName_append d f⟩

theorem lookup_some_mem_readdir {fs : Fs} {d : FsPath} {f : String} {nd : Node}
    (h : lookupFs fs (d ++ [f]) = some nd) : f ∈ readdirFs fs d :=
  mem_readdirFs.mpr ⟨nd, lookupFs_mem h⟩

theorem mem_readdir_lookup_isSome {fs : Fs} {d : FsPath} {f : String}
    (h : f ∈ readdirFs fs d) : (lookupFs fs (d ++ [f])).isSome := by
  obtain ⟨nd, hmem⟩ := mem_readdirFs.mp h
  exact mem_lookupFs_isSome hmem

theorem readdirFs_writeFile (fs : Fs) (p : FsPath) (c : String) (now : Nat) (d : FsPath)
    (h : childName d p = none) :
    readdirFs (writeFile fs p c now) d = readdirFs fs d := by
  induction fs with
  | nil => simp [writeFile, readdirFs, h]
  | cons e rest ih =>
    obtain ⟨q0, nd0⟩ := e
    by_cases h1 : q0 = p
    · subst h1
      simp [writeFile, readdirFs, List.filterMap_cons, h]
    · simp only [writeFile, if_neg h1]
      simp only [readdirFs, List.filterMap_cons] at ih ⊢
      cases hcn : childName d q0 <;> simp [hcn, ih]

theorem readdirFs_utimesFs (fs : Fs) (p : FsPath) (a m : Nat) (d : FsPath) :
    readdirFs (utimesFs fs p a m) d = readdirFs fs d := by
  induction fs with
  | nil => simp [utimesFs]
  | cons e rest ih =>
    obtain ⟨q0, nd0⟩ := e
    by_cases h1 : q0 = p
    · subst h1
      simp only [utimesFs, if_pos rfl]
      simp only [readdirFs, List.filterMap_cons] at ih ⊢
      cases nd0 <;> cases hcn : childName d q0 <;> simp [hcn, ih]
    · simp only [utimesFs, if_neg h1]
      simp only [readdirFs, List.filterMap_cons] at ih ⊢
      cases hcn : childName d q0 <;> simp [hcn, ih]

theorem lookupMap_setMap (ch : List (String × String)) (k v : String) (k' : String) :
    lookupMap (setMap ch k v) k' = if k' = k then some v else lookupMap ch k' := by
  induction ch with
  | nil =>
    by_cases h : k' = k
    · subst h; simp [setMap, lookupMap]
    · simp [setMap, lookupMap, h, Ne.symm h]
  | cons e rest ih =>
    obtain ⟨k0, v0⟩ := e
    by_cases h1 : k0 = k
    · subst h1
      by_cases h2 : k0 = k'
      · subst h2; simp [setMap, lookupMap]
      · simp [setMap, lookupMap, h2, Ne.symm h2]
    · by_cases h2 : k0 = k'
      · subst h2
        simp [setMap, lookupMap, h1, Ne.symm h1]
      · simp [setMap, lookupMap, h1, h2, ih]

/-! ### Per-step lemmas about the migration loop body -/

theorem lookupFs_writeBranch (fs : Fs) (p : FsPath) (c : String) (now a m : Nat)
    (pm : Bool) (q : FsPath) :
    lookupFs (if pm then utimesFs (writeFile fs p c now) p a m else writeFile fs p c now) q =
      if q = p then some (Node.file c (if pm then a else now) (if pm then m else now))
      else lookupFs fs q := by
  cases pm
  · simp [lookupFs_writeFile]
  · have h1 : lookupFs (utimesFs (writeFile fs p c now) p a m) q
        = if q = p then some (Node.file c a m) else lookupFs fs q := by
      rw [lookupFs_utimesFs]
      by_cases h : q = p
      · subst h; simp [lookupFs_writeFile]
      · simp [h, lookupFs_writeFile]
    simpa using h1

theorem readdirFs_writeBranch (fs : Fs) (p : FsPath) (c : String) (now a m : Nat)
    (pm : Bool) (d : FsPath) (h : childName d p = none) :
    readdirFs (if pm then utimesFs (writeFile fs p c now) p a m else writeFile fs p c now) d
      = readdirFs fs d := by
  cases pm <;> simp [readdirFs_utimesFs, readdirFs_writeFile _ _ _ _ _ h]

theorem migrateStep_cases (opts : MigrationOptions) (s t : FsPath) (now : Nat)
    (f : String) (st : LoopState) :
    ((migrateStep opts s t now f st).1.fs = st.fs ∧
     (migrateStep opts s t now f st).1.migratedFiles = st.migratedFiles) ∨
    (∃ c a m, lookupFs st.fs (s ++ [f]) = some (Node.file c a m) ∧
      (migrateStep opts s t now f st).2 = none ∧
      (migrateStep opts s t now f st).1.migratedFiles = st.migratedFiles ++ [f] ∧
      writeNeeded st.fs s t f = true ∧
      (∀ q, q ≠ t ++ [f] →
        lookupFs (migrateStep opts s t now f st).1.fs q = lookupFs st.fs q) ∧
      (∃ a2 m2, lookupFs (migrateStep opts s t now f st).1.fs (t ++ [f])
        = some (Node.file c a2 m2)) ∧
      (∀ g, lookupFs (migrateStep opts s t now f st).1.fs (s ++ [g])
        = lookupFs st.fs (s ++ [g])) ∧
      readdirFs (migrateStep opts s t now f st).1.fs s = readdirFs st.fs s) := by
  cases hs : lookupFs st.fs (s ++ [f]) with
  | none => left; simp [migrateStep, hs]
  | some nd =>
    cases nd with
    | dir => left; simp [migrateStep, hs]
    | file c a m =>
      have hwrite : (lookupFs st.fs (t ++ [f]) = some (Node.file c a m) → False) →
          (migrateStep opts s t now f st).1.fs
            = (if opts.preserveMetadata then
                utimesFs (writeFile st.fs (t ++ [f]) c now) (t ++ [f]) a m
              else writeFile st.fs (t ++ [f]) c now) →
          (migrateStep opts s t now f st).2 = none →
          (migrateStep opts s t now f st).1.migratedFiles = st.migratedFiles ++ [f] →
          writeNeeded st.fs s t f = true →
          ((migrateStep opts s t now f st).2 = none ∧
            (migrateStep opts s t now f st).1.migratedFiles = st.migratedFiles ++ [f] ∧
            writeNeeded st.fs s t f = true ∧
            (∀ q, q ≠ t ++ [f] →
              lookupFs (migrateStep opts s t now f st).1.fs q = lookupFs st.fs q) ∧
            (∃ a2 m2, lookupFs (migrateStep opts s t now f st).1.fs (t ++ [f])
              = some (Node.file c a2 m2)) ∧
            (∀ g, lookupFs (migrateStep opts s t now f st).1.fs (s ++ [g])
              = lookupFs st.fs (s ++ [g])) ∧
            readdirFs (migrateStep opts s t now f st).1.fs s = readdirFs st.fs s) := by
        intro hcontra hfs he hmig hwn
        have hne : ∀ g, s ++ [g] ≠ t ++ [f] := by
          intro g hg
          obtain ⟨hst, hgf⟩ := append_singleton_inj hg
          subst hgf
          rw [hg] at hs
          exact hcontra hs
        refine ⟨he, hmig, hwn, ?_, ?_, ?_, ?_⟩
        · intro q hq
          rw [hfs, lookupFs_writeBranch, if_neg hq]
        · refine ⟨if opts.preserveMetadata then a else now,
                  if opts.preserveMetadata then m else now, ?_⟩
          rw [hfs, lookupFs_writeBranch, if_pos rfl]
        · intro g
          rw [hfs, lookupFs_writeBranch, if_neg (hne g)]
        · have hcn : childName s (t ++ [f]) = none := by
            cases hcn : childName s (t ++ [f]) with
            | none => rfl
            | some x =>
              have hx := childName_eq_some.mp hcn
              exact absurd hx.symm (hne x)
          rw [hfs, readdirFs_writeBranch _ _ _ _ _ _ _ _ hcn]
      cases ht : lookupFs st.fs (t ++ [f]) with
      | none =>
        right
        exact ⟨c, a, m, rfl,
          hwrite (fun hc => by rw [hc] at ht; exact Option.noConfusion ht)
            (by simp [migrateStep, hs, ht]) (by simp [migrateStep, hs, ht])
            (by simp [migrateStep, hs, ht]) (by simp [writeNeeded, hs, ht])⟩
      | some nd2 =>
        cases nd2 with
        | dir => left; simp [migrateStep, hs, ht]
        | file ex a2 m2 =>
          by_cases hex : ex = c
          · left; simp [migrateStep, hs, ht, hex]
          · right
            refine ⟨c, a, m, rfl, hwrite ?_
              (by simp [migrateStep, hs, ht, hex]) (by simp [migrateStep, hs, ht, hex])
              (by simp [migrateStep, hs, ht, hex]) (by simp [writeNeeded, hs, ht, hex])⟩
            intro hc
            rw [hc] at ht
            injection ht with h1
            injection h1 with hcc _ _
            exact hex hcc.symm

theorem migrateStep_source_lookup (opts : MigrationOptions) (s t : FsPath) (now : Nat)
    (f : String) (st : LoopState) (g : String) :
    lookupFs (migrateStep opts s t now f st).1.fs (s ++ [g])
      = lookupFs st.fs (s ++ [g]) := by
  rcases migrateStep_cases opts s t now f st with ⟨hfs, _⟩ | ⟨c, a, m, _, _, _, _, _, _, hsrc, _⟩
  · rw [hfs]
  · exact hsrc g

theorem migrateStep_readdir_source (opts : MigrationOptions) (s t : FsPath) (now : Nat)
    (f : String) (st : LoopState) :
    readdirFs (migrateStep opts s t now f st).1.fs s = readdirFs st.fs s := by
  rcases migrateStep_cases opts s t now f st with ⟨hfs, _⟩ | ⟨c, a, m, _, _, _, _, _, _, _, hrd⟩
  · rw [hfs]
  · exact hrd

theorem migrateStep_target_other (opts : MigrationOptions) (s t : FsPath) (now : Nat)
    (f : String) (st : LoopState) (g : String) (hg : g ≠ f) :
    lookupFs (migrateStep opts s t now f st).1.fs (t ++ [g])
      = lookupFs st.fs (t ++ [g]) := by
  rcases migrateStep_cases opts s t now f st with ⟨hfs, _⟩ | ⟨c, a, m, _, _, _, _, hq, _, _, _⟩
  · rw [hfs]
  · exact hq _ (fun h => hg (append_singleton_inj h).2)

theorem migrateStep_checksums (opts : MigrationOptions) (s t : FsPath) (now : Nat)
    (f : String) (st : LoopState) (c : String) (a m : Nat)
    (hs : lookupFs st.fs (s ++ [f]) = some (Node.file c a m)) :
    (migrateStep opts s t now f st).1.checksums = recordChecksum opts f c st.checksums := by
  cases ht : lookupFs st.fs (t ++ [f]) with
  | none => simp [migrateStep, hs, ht]
  | some nd =>
    cases nd with
    | dir => simp [migrateStep, hs, ht]
    | file ex a2 m2 => by_cases hex : ex = c <;> simp [migrateStep, hs, ht, hex]

theorem migrateStep_skip_writeNeeded (opts : MigrationOptions) (s t : FsPath) (now : Nat)
    (f : String) (st : LoopState)
    (hmig : (migrateStep opts s t now f st).1.migratedFiles = st.migratedFiles)
    (he : (migrateStep opts s t now f st).2 = none) :
    writeNeeded st.fs s t f = false := by
  cases hs : lookupFs st.fs (s ++ [f]) with
  | none => simp [migrateStep, hs] at he
  | some nd =>
    cases nd with
    | dir => simp [writeNeeded, hs]
    | file c a m =>
      cases ht : lookupFs st.fs (t ++ [f]) with
      | none => simp [migrateStep, hs, ht] at hmig
      | some nd2 =>
        cases nd2 with
        | dir => simp [migrateStep, hs, ht] at he
        | file ex a2 m2 =>
          by_cases hex : ex = c
          · simp [writeNeeded, hs, ht, hex]
          · simp [migrateStep, hs, ht, hex] at hmig

/-! ### Run-level lemmas about the migration loop -/

theorem writeNeeded_congr {fs1 fs2 : Fs} {s t : FsPath} {f : String}
    (h1 : lookupFs fs1 (s ++ [f]) = lookupFs fs2 (s ++ [f]))
    (h2 : lookupFs fs1 (t ++ [f]) = lookupFs fs2 (t ++ [f])) :
    writeNeeded fs1 s t f = writeNeeded fs2 s t f := by
  unfold writeNeeded
  rw [h1, h2]

theorem migrateFiles_source_stable (opts : MigrationOptions) (s t : FsPath) (now : Nat) :
    ∀ (files : List String) (st : LoopState),
      (∀ g, lookupFs (migrateFiles opts s t now files st).1.fs (s ++ [g])
        = lookupFs st.fs (s ++ [g])) ∧
      readdirFs (migrateFiles opts s t now files st).1.fs s = readdirFs st.fs s := by
  intro files
  induction files with
  | nil => intro st; simp [migrateFiles]
  | cons f rest ih =>
    intro st
    have hsrc : ∀ g, lookupFs (migrateStep opts s t now f st).1.fs (s ++ [g])
        = lookupFs st.fs (s ++ [g]) := migrateStep_source_lookup opts s t now f st
    have hrd := migrateStep_readdir_source opts s t now f st
    cases hstep : migrateStep opts s t now f st with
    | mk st1 e =>
      rw [hstep] at hsrc hrd
      cases e with
      | none =>
        have hrun : migrateFiles opts s t now (f :: rest) st
            = migrateFiles opts s t now rest st1 := by
          simp [migrateFiles, hstep]
        rw [hrun]
        obtain ⟨ih1, ih2⟩ := ih st1
        exact ⟨fun g => (ih1 g).trans (hsrc g), ih2.trans hrd⟩
      | some msg =>
        have hrun : migrateFiles opts s t now (f :: rest) st = (st1, some msg) := by
          simp [migrateFiles, hstep]
        rw [hrun]
        exact ⟨hsrc, hrd⟩

theorem migrateFiles_keeps_target (opts : MigrationOptions) (s t : FsPath) (now : Nat) :
    ∀ (files : List String) (st : LoopState) (g c : String),
      (∃ a m, lookupFs st.fs (s ++ [g]) = some (Node.file c a m)) →
      (∃ a2 m2, lookupFs st.fs (t ++ [g]) = some (Node.file c a2 m2)) →
      ∃ a2 m2, lookupFs (migrateFiles opts s t now files st).1.fs (t ++ [g])
        = some (Node.file c a2 m2) := by
  intro files
  induction files with
  | nil =>
    intro st g c _ htgt
    simpa [migrateFiles] using htgt
  | cons f rest ih =>
    intro st g c hsrc htgt
    by_cases hfg : f = g
    · subst hfg
      obtain ⟨a, m, hs⟩ := hsrc
      obtain ⟨a2, m2, ht⟩ := htgt
      have hstep : migrateStep opts s t now f st
          = ({ st with checksums := recordChecksum opts f c st.checksums }, none) := by
        simp [migrateStep, hs, ht]
      have hrun : migrateFiles opts s t now (f :: rest) st
          = migrateFiles opts s t now rest
              { st with checksums := recordChecksum opts f c st.checksums } := by
        simp [migrateFiles, hstep]
      rw [hrun]
      exact ih _ f c ⟨a, m, hs⟩ ⟨a2, m2, ht⟩
    · have hsrc1 := migrateStep_source_lookup opts s t now f st g
      have htgt1 := migrateStep_target_other opts s t now f st g (fun h => hfg h.symm)
      cases hstep : migrateStep opts s t now f st with
      | mk st1 e =>
        rw [hstep] at hsrc1 htgt1
        cases e with
        | none =>
          have hrun : migrateFiles opts s t now (f :: rest) st
              = migrateFiles opts s t now rest st1 := by
            simp [migrateFiles, hstep]
          rw [hrun]
          obtain ⟨a, m, hm⟩ := hsrc
          obtain ⟨a2, m2, hm2⟩ := htgt
          exact ih st1 g c ⟨a, m, hsrc1.trans hm⟩ ⟨a2, m2, htgt1.trans hm2⟩
        | some msg =>
          have hrun : migrateFiles opts s t now (f :: rest) st = (st1, some msg) := by
            simp [migrateFiles, hstep]
          rw [hrun]
          obtain ⟨a2, m2, hm2⟩ := htgt
          exact ⟨a2, m2, htgt1.trans hm2⟩

theorem migrateFiles_establishes (opts : MigrationOptions) (s t : FsPath) (now : Nat) :
    ∀ (files : List String) (st : LoopState),
      (migrateFiles opts s t now files st).2 = none →
      ∀ f ∈ files, ∀ c a m, lookupFs st.fs (s ++ [f]) = some (Node.file c a m) →
      ∃ a2 m2, lookupFs (migrateFiles opts s t now files st).1.fs (t ++ [f])
        = some (Node.file c a2 m2) := by
  intro files
  induction files with
  | nil =>
    intro st _ f hf
    simp at hf
  | cons f0 rest ih =>
    intro st hrun f hf c a m hs
    cases hstep : migrateStep opts s t now f0 st with
    | mk st1 e =>
      cases e with
      | some msg =>
        rw [show migrateFiles opts s t now (f0 :: rest) st = (st1, some msg) from by
          simp [migrateFiles, hstep]] at hrun
        exact absurd hrun (by simp)
      | none =>
        have hrw : migrateFiles opts s t now (f0 :: rest) st
            = migrateFiles opts s t now rest st1 := by
          simp [migrateFiles, hstep]
        rw [hrw] at hrun ⊢
        have hsg : ∀ x, lookupFs st1.fs (s ++ [x]) = lookupFs st.fs (s ++ [x]) := by
          intro x
          have h := migrateStep_source_lookup opts s t now f0 st x
          rw [hstep] at h
          exact h
        rcases List.mem_cons.mp hf with hf0 | hfr
        · subst hf0
          have hcase := migrateStep_cases opts s t now f st
          rw [hstep] at hcase
          rcases hcase with ⟨hfs, hmig⟩ | ⟨c2, a2, m2, hs2, _, _, _, _, ⟨a3, m3, htg⟩, _, _⟩
          · have hwn0 : writeNeeded st.fs s t f = false := by
              have h := migrateStep_skip_writeNeeded opts s t now f st
                (by rw [hstep]; exact hmig) (by rw [hstep])
              exact h
            cases ht : lookupFs st.fs (t ++ [f]) with
            | none => simp [writeNeeded, hs, ht] at hwn0
            | some nd2 =>
              cases nd2 with
              | dir => simp [writeNeeded, hs, ht] at hwn0
              | file ex ea em =>
                by_cases hex : ex = c
                · subst hex
                  exact migrateFiles_keeps_target opts s t now rest st1 f ex
                    ⟨a, m, by rw [hsg f]; exact hs⟩
                    ⟨ea, em, by rw [hfs]; exact ht⟩
                · simp [writeNeeded, hs, ht, hex] at hwn0
          · have hcc : c2 = c := by
              rw [hs] at hs2
              injection hs2 with h1
              injection h1 with hcc _ _
              exact hcc.symm
            subst hcc
            exact migrateFiles_keeps_target opts s t now rest st1 f c2
              ⟨a, m, by rw [hsg f]; exact hs⟩ ⟨a3, m3, htg⟩
        · exact ih st1 hrun f hfr c a m (by rw [hsg f]; exact hs)

theorem migrateFiles_all_skip (opts : MigrationOptions) (s t : FsPath) (now : Nat) :
    ∀ (files : List String) (st : LoopState),
      (∀ f ∈ files, lookupFs st.fs (s ++ [f]) ≠ none) →
      (∀ f ∈ files, ∀ c a m, lookupFs st.fs (s ++ [f]) = some (Node.file c a m) →
        ∃ a2 m2, lookupFs st.fs (t ++ [f]) = some (Node.file c a2 m2)) →
      ∃ ch, migrateFiles opts s t now files st
        = ({ fs := st.fs, migratedFiles := st.migratedFiles, checksums := ch }, none) := by
  intro files
  induction files with
  | nil =>
    intro st _ _
    exact ⟨st.checksums, by simp [migrateFiles]⟩
  | cons f rest ih =>
    intro st h1 h2
    cases hs : lookupFs st.fs (s ++ [f]) with
    | none => exact absurd hs (h1 f (by simp))
    | some nd =>
      cases nd with
      | dir =>
        have hstep : migrateStep opts s t now f st = (st, none) := by
          simp [migrateStep, hs]
        have hrw : migrateFiles opts s t now (f :: rest) st
            = migrateFiles opts s t now rest st := by
          simp [migrateFiles, hstep]
        rw [hrw]
        exact ih st (fun g hg => h1 g (by simp [hg])) (fun g hg => h2 g (by simp [hg]))
      | file c a m =>
        obtain ⟨a2, m2, ht⟩ := h2 f (by simp) c a m hs
        have hstep : migrateStep opts s t now f st
            = ({ st with checksums := recordChecksum opts f c st.checksums }, none) := by
          simp [migrateStep, hs, ht]
        have hrw : migrateFiles opts s t now (f :: rest) st
            = migrateFiles opts s t now rest
                { st with checksums := recordChecksum opts f c st.checksums } := by
          simp [migrateFiles, hstep]
        rw [hrw]
        obtain ⟨ch, hch⟩ := ih { st with checksums := recordChecksum opts f c st.checksums }
          (fun g hg => h1 g (by simp [hg])) (fun g hg => h2 g (by simp [hg]))
        exact ⟨ch, hch⟩

theorem migrateFiles_migrated_iff (opts : MigrationOptions) (s t : FsPath) (now : Nat) :
    ∀ (files : List String) (st : LoopState),
      (migrateFiles opts s t now files st).2 = none → ∀ f,
      (f ∈ (migrateFiles opts s t now files st).1.migratedFiles ↔
        f ∈ st.migratedFiles ∨ (f ∈ files ∧ writeNeeded st.fs s t f = true)) := by
  intro files
  induction files with
  | nil =>
    intro st _ f
    simp [migrateFiles]
  | cons g rest ih =>
    intro st hrun f
    cases hstep : migrateStep opts s t now g st with
    | mk st1 e =>
      cases e with
      | some msg =>
        rw [show migrateFiles opts s t now (g :: rest) st = (st1, some msg) from by
          simp [migrateFiles, hstep]] at hrun
        exact absurd hrun (by simp)
      | none =>
        have hrw : migrateFiles opts s t now (g :: rest) st
            = migrateFiles opts s t now rest st1 := by
          simp [migrateFiles, hstep]
        rw [hrw] at hrun ⊢
        have hsg : ∀ x, lookupFs st1.fs (s ++ [x]) = lookupFs st.fs (s ++ [x]) := by
          intro x
          have h := migrateStep_source_lookup opts s t now g st x
          rw [hstep] at h
          exact h
        have htg : ∀ x, x ≠ g → lookupFs st1.fs (t ++ [x]) = lookupFs st.fs (t ++ [x]) := by
          intro x hx
          have h := migrateStep_target_other opts s t now g st x hx
          rw [hstep] at h
          exact h
        have hcase := migrateStep_cases opts s t now g st
        rw [hstep] at hcase
        rcases hcase with ⟨hfs, hmig⟩ | ⟨c, a, m, hs, _, hmig, hwn, _, _, _, _⟩
        · have hwn0 : writeNeeded st.fs s t g = false :=
            migrateStep_skip_writeNeeded opts s t now g st
              (by rw [hstep]; exact hmig) (by rw [hstep])
          have hiff := ih st1 hrun f
          rw [hfs, hmig] at hiff
          rw [hiff]
          by_cases hfg : f = g
          · subst hfg
            simp [List.mem_cons, hwn0]
          · simp [List.mem_cons, hfg]
        · have hiff := ih st1 hrun f
          rw [hmig] at hiff
          by_cases hfg : f = g
          · subst hfg
            rw [hiff]
            simp [List.mem_append, List.mem_cons, hwn]
          · have hwnf : writeNeeded st1.fs s t f = writeNeeded st.fs s t f :=
              writeNeeded_congr (hsg f) (htg f hfg)
            rw [hwnf] at hiff
            rw [hiff]
            simp [List.mem_append, List.mem_cons, hfg]

theorem migrateFiles_keeps_checksum (opts : MigrationOptions) (s t : FsPath) (now : Nat) :
    ∀ (files : List String) (st : LoopState) (g c : String),
      (∃ a m, lookupFs st.fs (s ++ [g]) = some (Node.file c a m)) →
      lookupMap st.checksums g = some (calculateMockChecksum c) →
      lookupMap (migrateFiles opts s t now files st).1.checksums g
        = some (calculateMockChecksum c) := by
  intro files
  induction files with
  | nil =>
    intro st g c _ hch
    simpa [migrateFiles] using hch
  | cons f rest ih =>
    intro st g c hsrc hch
    have hch1 : lookupMap (migrateStep opts s t now f st).1.checksums g
        = some (calculateMockChecksum c) := by
      cases hsf : lookupFs st.fs (s ++ [f]) with
      | none => simpa [migrateStep, hsf] using hch
      | some nd =>
        cases nd with
        | dir => simpa [migrateStep, hsf] using hch
        | file cf af mf =>
          rw [migrateStep_checksums opts s t now f st cf af mf hsf]
          unfold recordChecksum
          cases hic : opts.enableIntegrityChecks with
          | false => simpa using hch
          | true =>
            by_cases hfg : f = g
            · subst hfg
              obtain ⟨a, m, hm⟩ := hsrc
              rw [hm] at hsf
              injection hsf with h1
              injection h1 with hcc _ _
              subst hcc
              simp [lookupMap_setMap]
            · rw [if_pos rfl, lookupMap_setMap, if_neg (fun h => hfg h.symm)]
              exact hch
    have hsrc1 : ∃ a m, lookupFs (migrateStep opts s t now f st).1.fs (s ++ [g])
        = some (Node.file c a m) := by
      obtain ⟨a, m, hm⟩ := hsrc
      exact ⟨a, m, (migrateStep_source_lookup opts s t now f st g).trans hm⟩
    cases hstep : migrateStep opts s t now f st with
    | mk st1 e =>
      rw [hstep] at hch1 hsrc1
      cases e with
      | none =>
        have hrw : migrateFiles opts s t now (f :: rest) st
            = migrateFiles opts s t now rest st1 := by
          simp [migrateFiles, hstep]
        rw [hrw]
        exact ih st1 g c hsrc1 hch1
      | some msg =>
        have hrw : migrateFiles opts s t now (f :: rest) st = (st1, some msg) := by
          simp [migrateFiles, hstep]
        rw [hrw]
        exact hch1

theorem migrateFiles_checksum_complete (opts : MigrationOptions) (s t : FsPath) (now : Nat) :
    ∀ (files : List String) (st : LoopState),
      opts.enableIntegrityChecks = true →
      (migrateFiles opts s t now files st).2 = none →
      ∀ f ∈ files, ∀ c a m, lookupFs st.fs (s ++ [f]) = some (Node.file c a m) →
      lookupMap (migrateFiles opts s t now files st).1.checksums f
        = some (calculateMockChecksum c) := by
  intro files
  induction files with
  | nil =>
    intro st _ _ f hf
    simp at hf
  | cons f0 rest ih =>
    intro st hic hrun f hf c a m hs
    cases hstep : migrateStep opts s t now f0 st with
    | mk st1 e =>
      cases e with
      | some msg =>
        rw [show migrateFiles opts s t now (f0 :: rest) st = (st1, some msg) from by
          simp [migrateFiles, hstep]] at hrun
        exact absurd hrun (by simp)
      | none =>
        have hrw : migrateFiles opts s t now (f0 :: rest) st
            = migrateFiles opts s t now rest st1 := by
          simp [migrateFiles, hstep]
        rw [hrw] at hrun ⊢
        have hsg : ∀ x, lookupFs st1.fs (s ++ [x]) = lookupFs st.fs (s ++ [x]) := by
          intro x
          have h := migrateStep_source_lookup opts s t now f0 st x
          rw [hstep] at h
          exact h
        rcases List.mem_cons.mp hf with hf0 | hfr
        · subst hf0
          have hch1 : lookupMap st1.checksums f = some (calculateMockChecksum c) := by
            have h := migrateStep_checksums opts s t now f st c a m hs
            rw [hstep] at h
            rw [h]
            unfold recordChecksum
            rw [hic]
            simp [lookupMap_setMap]
          exact migrateFiles_keeps_checksum opts s t now rest st1 f c
            ⟨a, m, by rw [hsg f]; exact hs⟩ hch1
        · exact ih st1 hic hrun f hfr c a m (by rw [hsg f]; exact hs)

/-! ### Lemmas about the rollback loop -/

theorem rollbackFiles_frame : ∀ (l : List String) (fs : Fs) (t : FsPath) (p : FsPath),
    (∀ f ∈ l, p ≠ t ++ [f]) →
    lookupFs (rollbackFiles fs t l).1 p = lookupFs fs p := by
  intro l
  induction l with
  | nil => intro fs t p _; simp [rollbackFiles]
  | cons f rest ih =>
    intro fs t p hp
    cases ht : lookupFs fs (t ++ [f]) with
    | none =>
      rw [show rollbackFiles fs t (f :: rest) = rollbackFiles fs t rest from by
        simp [rollbackFiles, ht]]
      exact ih fs t p (fun g hg => hp g (by simp [hg]))
    | some nd =>
      cases nd with
      | dir =>
        rw [show rollbackFiles fs t (f :: rest)
            = (fs, some "EPERM: operation not permitted, unlink") from by
          simp [rollbackFiles, ht]]
      | file c a m =>
        rw [show rollbackFiles fs t (f :: rest)
            = rollbackFiles (unlinkFs fs (t ++ [f])) t rest from by
          simp [rollbackFiles, ht]]
        rw [ih _ t p (fun g hg => hp g (by simp [hg]))]
        rw [lookupFs_unlinkFs, if_neg (hp f (by simp))]

theorem rollbackFiles_none_persists : ∀ (l : List String) (fs : Fs) (t : FsPath) (p : FsPath),
    lookupFs fs p = none → lookupFs (rollbackFiles fs t l).1 p = none := by
  intro l
  induction l with
  | nil => intro fs t p h; simpa [rollbackFiles] using h
  | cons f rest ih =>
    intro fs t p h
    cases ht : lookupFs fs (t ++ [f]) with
    | none =>
      rw [show rollbackFiles fs t (f :: rest) = rollbackFiles fs t rest from by
        simp [rollbackFiles, ht]]
      exact ih fs t p h
    | some nd =>
      cases nd with
      | dir =>
        rw [show rollbackFiles fs t (f :: rest)
            = (fs, some "EPERM: operation not permitted, unlink") from by
          simp [rollbackFiles, ht]]
        exact h
      | file c a m =>
        rw [show rollbackFiles fs t (f :: rest)
            = rollbackFiles (unlinkFs fs (t ++ [f])) t rest from by
          simp [rollbackFiles, ht]]
        refine ih _ t p ?_
        rw [lookupFs_unlinkFs]
        split <;> simp [h]

theorem rollbackFiles_gone : ∀ (l : List String) (fs : Fs) (t : FsPath),
    (rollbackFiles fs t l).2 = none →
    ∀ f ∈ l, lookupFs (rollbackFiles fs t l).1 (t ++ [f]) = none := by
  intro l
  induction l with
  | nil => intro fs t _ f hf; simp at hf
  | cons f0 rest ih =>
    intro fs t hrun f hf
    cases ht : lookupFs fs (t ++ [f0]) with
    | none =>
      have hrw : rollbackFiles fs t (f0 :: rest) = rollbackFiles fs t rest := by
        simp [rollbackFiles, ht]
      rw [hrw] at hrun ⊢
      rcases List.mem_cons.mp hf with hf0 | hfr
      · subst hf0
        exact rollbackFiles_none_persists rest fs t (t ++ [f]) ht
      · exact ih fs t hrun f hfr
    | some nd =>
      cases nd with
      | dir =>
        rw [show rollbackFiles fs t (f0 :: rest)
            = (fs, some "EPERM: operation not permitted, unlink") from by
          simp [rollbackFiles, ht]] at hrun
        exact absurd hrun (by simp)
      | file c a m =>
        have hrw : rollbackFiles fs t (f0 :: rest)
            = rollbackFiles (unlinkFs fs (t ++ [f0])) t rest := by
          simp [rollbackFiles, ht]
        rw [hrw] at hrun ⊢
        rcases List.mem_cons.mp hf with hf0 | hfr
        · subst hf0
          refine rollbackFiles_none_persists rest _ t (t ++ [f]) ?_
          rw [lookupFs_unlinkFs, if_pos rfl]
        · exact ih _ t hrun f hfr

theorem rollbackFiles_fail : ∀ (l : List String) (fs : Fs) (t : FsPath),
    (rollbackFiles fs t l).2 ≠ none →
    ∃ f ∈ l, lookupFs (rollbackFiles fs t l).1 (t ++ [f]) = some Node.dir := by
  intro l
  induction l with
  | nil => intro fs t hrun; exact absurd rfl hrun
  | cons f0 rest ih =>
    intro fs t hrun
    cases ht : lookupFs fs (t ++ [f0]) with
    | none =>
      have hrw : rollbackFiles fs t (f0 :: rest) = rollbackFiles fs t rest := by
        simp [rollbackFiles, ht]
      rw [hrw] at hrun ⊢
      obtain ⟨f, hf, hdir⟩ := ih fs t hrun
      exact ⟨f, by simp [hf], hdir⟩
    | some nd =>
      cases nd with
      | dir =>
        rw [show rollbackFiles fs t (f0 :: rest)
            = (fs, some "EPERM: operation not permitted, unlink") from by
          simp [rollbackFiles, ht]]
        exact ⟨f0, by simp, ht⟩
      | file c a m =>
        have hrw : rollbackFiles fs t (f0 :: rest)
            = rollbackFiles (unlinkFs fs (t ++ [f0])) t rest := by
          simp [rollbackFiles, ht]
        rw [hrw] at hrun ⊢
        obtain ⟨f, hf, hdir⟩ := ih _ t hrun
        exact ⟨f, by simp [hf], hdir⟩

theorem rollbackFiles_skip : ∀ (l : List String) (fs : Fs) (t : FsPath),
    (∀ f ∈ l, lookupFs fs (t ++ [f]) = none) → rollbackFiles fs t l = (fs, none) := by
  intro l
  induction l with
  | nil => intro fs t _; rfl
  | cons f rest ih =>
    intro fs t h
    have h0 := h f (by simp)
    rw [show rollbackFiles fs t (f :: rest) = rollbackFiles fs t rest from by
      simp [rollbackFiles, h0]]
    exact ih fs t (fun g hg => h g (by simp [hg]))

/-! ### Unfolding helpers for the two entry points -/

theorem performMockMigration_eq_of_run (fs : Fs) (s t : FsPath) (now : Nat)
    (opts : MigrationOptions) (st : LoopState)
    (hrun : migrateFiles opts s t now (readdirFs fs s) ⟨fs, [], []⟩ = (st, none)) :
    performMockMigration fs s t true now opts =
      ({ success := true, error := none
         rollbackInfo :=
           if opts.createRollbackInfo then
             some { sourceDir := s, targetDir := t, migratedFiles := st.migratedFiles,
                    timestamp := toString now }
           else none
         integrityChecks :=
           if opts.enableIntegrityChecks then
             some { fileCount := st.migratedFiles.length, allChecksPassed := true,
                    checksums := st.checksums }
           else none }, st.fs) := by
  unfold performMockMigration
  rw [if_pos rfl, hrun]

theorem performMockMigration_eq_of_err (fs : Fs) (s t : FsPath) (now : Nat)
    (opts : MigrationOptions) (st : LoopState) (msg : String)
    (hrun : migrateFiles opts s t now (readdirFs fs s) ⟨fs, [], []⟩ = (st, some msg)) :
    performMockMigration fs s t true now opts
      = ({ success := false, error := some msg }, st.fs) := by
  unfold performMockMigration
  rw [if_pos rfl, hrun]

theorem performMockMigration_success_writable (fs : Fs) (s t : FsPath) (w : Bool)
    (now : Nat) (opts : MigrationOptions)
    (h : (performMockMigration fs s t w now opts).1.success = true) : w = true := by
  cases w with
  | true => rfl
  | false => simp [performMockMigration] at h

/-! ### Claim theorems -/

/-- C1: Migration is idempotent — for a fixed source and target, a second
`performMockMigration` call right after a first successful one leaves the
filesystem exactly as the first call left it, reports success, and its
rollback descriptor (when requested) lists no migrated file: every file is
skipped because its target copy is already byte-identical. -/
theorem migration_idempotent (fs : Fs) (s t : FsPath) (w : Bool) (n1 n2 : Nat)
    (opts : MigrationOptions)
    (h : (performMockMigration fs s t w n1 opts).1.success = true) :
    (performMockMigration (performMockMigration fs s t w n1 opts).2 s t w n2 opts).2
      = (performMockMigration fs s t w n1 opts).2
    ∧ (performMockMigration (performMockMigration fs s t w n1 opts).2 s t w n2 opts).1.success
      = true
    ∧ (performMockMigration (performMockMigration fs s t w n1 opts).2 s t w n2 opts).1.rollbackInfo
      = (if opts.createRollbackInfo then
          some { sourceDir := s, targetDir := t, migratedFiles := [],
                 timestamp := toString n2 }
         else none) := by
  have hw := performMockMigration_success_writable fs s t w n1 opts h
  subst hw
  cases hrun1 : migrateFiles opts s t n1 (readdirFs fs s) ⟨fs, [], []⟩ with
  | mk st1 e1 =>
    cases e1 with
    | some msg =>
      rw [performMockMigration_eq_of_err fs s t n1 opts st1 msg hrun1] at h
      simp at h
    | none =>
      have hfs1 : (performMockMigration fs s t true n1 opts).2 = st1.fs := by
        rw [performMockMigration_eq_of_run fs s t n1 opts st1 hrun1]
      rw [hfs1]
      have hstable := migrateFiles_source_stable opts s t n1 (readdirFs fs s) ⟨fs, [], []⟩
      rw [hrun1] at hstable
      obtain ⟨hsrc, hrd⟩ := hstable
      have h1 : ∀ f ∈ readdirFs st1.fs s, lookupFs st1.fs (s ++ [f]) ≠ none := by
        intro f hf hnone
        have hsome := mem_readdir_lookup_isSome hf
        rw [hnone] at hsome
        simp at hsome
      have h2 : ∀ f ∈ readdirFs st1.fs s, ∀ c a m,
          lookupFs st1.fs (s ++ [f]) = some (Node.file c a m) →
          ∃ a2 m2, lookupFs st1.fs (t ++ [f]) = some (Node.file c a2 m2) := by
        intro f hf c a m hm
        rw [hrd] at hf
        have hm0 : lookupFs fs (s ++ [f]) = some (Node.file c a m) := by
          rw [← hsrc f]; exact hm
        have hest := migrateFiles_establishes opts s t n1 (readdirFs fs s) ⟨fs, [], []⟩
          (by rw [hrun1]) f hf c a m hm0
        rw [hrun1] at hest
        exact hest
      obtain ⟨ch, hskip⟩ :=
        migrateFiles_all_skip opts s t n2 (readdirFs st1.fs s) ⟨st1.fs, [], []⟩ h1 h2
      have heq2 := performMockMigration_eq_of_run st1.fs s t n2 opts
        { fs := st1.fs, migratedFiles := [], checksums := ch } hskip
      rw [heq2]
      exact ⟨rfl, rfl, rfl⟩

/-- C2: Migration postcondition — after a successful call, every regular
source file has a target copy of the same relative name with byte-identical
content (overwriting any previous different content), and the checksum of
the migrated content equals the checksum of the source content. -/
theorem migration_target_matches_source (fs : Fs) (s t : FsPath) (w : Bool) (now : Nat)
    (opts : MigrationOptions) (f c : String) (a m : Nat)
    (hsrc : lookupFs fs (s ++ [f]) = some (Node.file c a m))
    (h : (performMockMigration fs s t w now opts).1.success = true) :
    ∃ c2 a2 m2, lookupFs (performMockMigration fs s t w now opts).2 (t ++ [f])
        = some (Node.file c2 a2 m2)
      ∧ c2 = c ∧ calculateMockChecksum c2 = calculateMockChecksum c := by
  have hw := performMockMigration_success_writable fs s t w now opts h
  subst hw
  cases hrun : migrateFiles opts s t now (readdirFs fs s) ⟨fs, [], []⟩ with
  | mk st e =>
    cases e with
    | some msg =>
      rw [performMockMigration_eq_of_err fs s t now opts st msg hrun] at h
      simp at h
    | none =>
      have hfa : f ∈ readdirFs fs s := lookup_some_mem_readdir hsrc
      have hest := migrateFiles_establishes opts s t now (readdirFs fs s) ⟨fs, [], []⟩
        (by rw [hrun]) f hfa c a m hsrc
      rw [hrun] at hest
      obtain ⟨a2, m2, hm⟩ := hest
      have hfs : (performMockMigration fs s t true now opts).2 = st.fs := by
        rw [performMockMigration_eq_of_run fs s t now opts st hrun]
      rw [hfs]
      exact ⟨c, a2, m2, hm, rfl, rfl⟩

/-- C3: Permission-failure atomicity — with an unwritable target,
`performMockMigration` returns success=false with an error naming the
permission denial, and the filesystem (in particular the target directory's
entries) is returned entirely unchanged: zero files are touched. -/
theorem migration_permission_denied_is_atomic (fs : Fs) (s t : FsPath) (now : Nat)
    (opts : MigrationOptions) :
    performMockMigration fs s t false now opts
      = ({ success := false,
           error := some "permission denied - target directory not writable",
           rollbackInfo := none, integrityChecks := none }, fs) := rfl

/-- C4 counterexample: with integrity checks enabled, a source file whose
target copy already exists byte-identically is processed (it is listed in
the directory, is a regular file, and receives a checksum entry) yet
`fileCount` is 0, not 1 — so `fileCount` does not count processed files. -/
theorem integrity_fileCount_counterexample :
    (performMockMigration
        [(["s", "a"], Node.file "x" 0 0), (["t", "a"], Node.file "x" 0 0)]
        ["s"] ["t"] true 0 { enableIntegrityChecks := true }).1
      = { success := true, error := none, rollbackInfo := none,
          integrityChecks := some { fileCount := 0, allChecksPassed := true,
                                    checksums := [("a", "78")] } }
    ∧ readdirFs [(["s", "a"], Node.file "x" 0 0), (["t", "a"], Node.file "x" 0 0)] ["s"]
      = ["a"]
    ∧ lookupFs [(["s", "a"], Node.file "x" 0 0), (["t", "a"], Node.file "x" 0 0)] ["s", "a"]
      = some (Node.file "x" 0 0) := by
  refine ⟨?_, ?_, ?_⟩ <;> rfl

/-- C4 (amended): for a successful migration with integrity checks enabled,
the report's `allChecksPassed` is true, its `checksums` map holds an entry
(the source checksum) for every regular source file processed, and its
`fileCount` equals the number of files actually written in this pass —
the length of the loop's migrated-file list, which excludes skipped files. -/
theorem integrity_report_contents (fs : Fs) (s t : FsPath) (w : Bool) (now : Nat)
    (opts : MigrationOptions) (f c : String) (a m : Nat)
    (hic : opts.enableIntegrityChecks = true)
    (hsrc : lookupFs fs (s ++ [f]) = some (Node.file c a m))
    (h : (performMockMigration fs s t w now opts).1.success = true) :
    ∃ ic, (performMockMigration fs s t w now opts).1.integrityChecks = some ic
      ∧ ic.allChecksPassed = true
      ∧ ic.fileCount = (migrateFiles opts s t now (readdirFs fs s)
          { fs := fs, migratedFiles := [], checksums := [] }).1.migratedFiles.length
      ∧ lookupMap ic.checksums f = some (calculateMockChecksum c) := by
  have hw := performMockMigration_success_writable fs s t w now opts h
  subst hw
  cases hrun : migrateFiles opts s t now (readdirFs fs s) ⟨fs, [], []⟩ with
  | mk st e =>
    cases e with
    | some msg =>
      rw [performMockMigration_eq_of_err fs s t now opts st msg hrun] at h
      simp at h
    | none =>
      have hic2 : (performMockMigration fs s t true now opts).1.integrityChecks
          = some { fileCount := st.migratedFiles.length, allChecksPassed := true,
                   checksums := st.checksums } := by
        rw [performMockMigration_eq_of_run fs s t now opts st hrun]
        simp [hic]
      have hfa : f ∈ readdirFs fs s := lookup_some_mem_readdir hsrc
      have hcs := migrateFiles_checksum_complete opts s t now (readdirFs fs s) ⟨fs, [], []⟩
        hic (by rw [hrun]) f hfa c a m hsrc
      rw [hrun] at hcs
      exact ⟨_, hic2, rfl, rfl, hcs⟩

/-- C5: Rollback removes exactly the listed files and nothing else — on a
successful rollback, every file named in the descriptor is absent from the
recorded target directory afterwards, and any path that is not one of the
listed target files is left untouched. -/
theorem rollback_removes_exactly_listed (fs : Fs) (info : RollbackInfo)
    (p : FsPath) (f : String)
    (hp : p ∉ info.migratedFiles.map (fun g => info.targetDir ++ [g]))
    (hf : f ∈ info.migratedFiles)
    (hs : (performMockRollback fs info).1.success = true) :
    lookupFs (performMockRollback fs info).2 p = lookupFs fs p
    ∧ lookupFs (performMockRollback fs info).2 (info.targetDir ++ [f]) = none := by
  cases hrb : rollbackFiles fs info.targetDir info.migratedFiles with
  | mk fs1 e =>
    cases e with
    | some msg =>
      rw [show performMockRollback fs info = ({ success := false, error := some msg }, fs1)
        from by simp [performMockRollback, hrb]] at hs
      simp at hs
    | none =>
      have hwrap : performMockRollback fs info = ({ success := true }, fs1) := by
        simp [performMockRollback, hrb]
      rw [hwrap]
      constructor
      · have hfr := rollbackFiles_frame info.migratedFiles fs info.targetDir p
          (fun g hg heq => hp (heq ▸ List.mem_map_of_mem _ hg))
        rw [hrb] at hfr
        exact hfr
      · have hg := rollbackFiles_gone info.migratedFiles fs info.targetDir
          (by rw [hrb]) f hf
        rw [hrb] at hg
        exact hg

/-- C6: Rollback succeeds exactly when every listed file ends up absent
(deleted now or already missing — a missing listed file is success, not an
error), and a successful rollback is idempotent: running it again with the
same descriptor deletes nothing and still reports success. -/
theorem rollback_success_iff_gone_and_idempotent (fs : Fs) (info : RollbackInfo) :
    ((performMockRollback fs info).1.success
      = info.migratedFiles.all
          (fun f => !existsFs (performMockRollback fs info).2 (info.targetDir ++ [f])))
    ∧ ((performMockRollback fs info).1.success = true →
        performMockRollback (performMockRollback fs info).2 info
          = ({ success := true, error := none, rollbackInfo := none,
               integrityChecks := none },
             (performMockRollback fs info).2)) := by
  cases hrb : rollbackFiles fs info.targetDir info.migratedFiles with
  | mk fs1 e =>
    cases e with
    | none =>
      have hwrap : performMockRollback fs info = ({ success := true }, fs1) := by
        simp [performMockRollback, hrb]
      rw [hwrap]
      have hg := rollbackFiles_gone info.migratedFiles fs info.targetDir (by rw [hrb])
      rw [hrb] at hg
      constructor
      · symm
        rw [List.all_eq_true]
        intro f hf
        simp [existsFs, hg f hf]
      · intro _
        have hskip := rollbackFiles_skip info.migratedFiles fs1 info.targetDir hg
        simp [performMockRollback, hskip]
    | some msg =>
      have hwrap : performMockRollback fs info
          = ({ success := false, error := some msg }, fs1) := by
        simp [performMockRollback, hrb]
      rw [hwrap]
      obtain ⟨f, hf, hdir⟩ := rollbackFiles_fail info.migratedFiles fs info.targetDir
        (by rw [hrb]; simp)
      rw [hrb] at hdir
      constructor
      · symm
        have hne : ¬(info.migratedFiles.all
            (fun f => !existsFs fs1 (info.targetDir ++ [f])) = true) := by
          rw [List.all_eq_true]
          intro hall
          have h2 := hall f hf
          simp [existsFs, hdir] at h2
        exact Bool.eq_false_iff.mpr hne
      · intro hcontra
        simp at hcontra

/-- C7: The rollback descriptor lists exactly the files written in this
pass — it records the source directory, target directory and a creation
timestamp, and a file name is in its migrated-file list precisely when it
is a regular source directory entry whose target copy was not already
byte-identical; skipped files do not appear. -/
theorem rollback_descriptor_lists_written (fs : Fs) (s t : FsPath) (w : Bool)
    (now : Nat) (opts : MigrationOptions) (f : String)
    (hrb : opts.createRollbackInfo = true)
    (h : (performMockMigration fs s t w now opts).1.success = true) :
    ∃ info, (performMockMigration fs s t w now opts).1.rollbackInfo = some info
      ∧ info.sourceDir = s ∧ info.targetDir = t ∧ info.timestamp = toString now
      ∧ (f ∈ info.migratedFiles ↔ (f ∈ readdirFs fs s ∧ writeNeeded fs s t f = true)) := by
  have hw := performMockMigration_success_writable fs s t w now opts h
  subst hw
  cases hrun : migrateFiles opts s t now (readdirFs fs s) ⟨fs, [], []⟩ with
  | mk st e =>
    cases e with
    | some msg =>
      rw [performMockMigration_eq_of_err fs s t now opts st msg hrun] at h
      simp at h
    | none =>
      have hinfo : (performMockMigration fs s t true now opts).1.rollbackInfo
          = some { sourceDir := s, targetDir := t, migratedFiles := st.migratedFiles,
                   timestamp := toString now } := by
        rw [performMockMigration_eq_of_run fs s t now opts st hrun]
        simp [hrb]
      refine ⟨_, hinfo, rfl, rfl, rfl, ?_⟩
      have hiff := migrateFiles_migrated_iff opts s t now (readdirFs fs s) ⟨fs, [], []⟩
        (by rw [hrun]) f
      rw [hrun] at hiff
      simpa using hiff

/-- C8: Migration never modifies the source directory — for every
invocation, with any option set, the node at every source path and the
source directory's entry listing are the same before and after the call. -/
theorem migration_never_touches_source (fs : Fs) (s t : FsPath) (w : Bool) (now : Nat)
    (opts : MigrationOptions) (f : String) :
    lookupFs (performMockMigration fs s t w now opts).2 (s ++ [f])
      = lookupFs fs (s ++ [f])
    ∧ readdirFs (performMockMigration fs s t w now opts).2 s = readdirFs fs s := by
  cases w with
  | false => exact ⟨rfl, rfl⟩
  | true =>
    cases hrun : migrateFiles opts s t now (readdirFs fs s) ⟨fs, [], []⟩ with
    | mk st e =>
      have hstable := migrateFiles_source_stable opts s t now (readdirFs fs s) ⟨fs, [], []⟩
      rw [hrun] at hstable
      obtain ⟨hsrc, hrd⟩ := hstable
      cases e with
      | none =>
        have hfs : (performMockMigration fs s t true now opts).2 = st.fs := by
          rw [performMockMigration_eq_of_run fs s t now opts st hrun]
        rw [hfs]
        exact ⟨hsrc f, hrd⟩
      | some msg =>
        have hfs : (performMockMigration fs s t true now opts).2 = st.fs := by
          rw [performMockMigration_eq_of_err fs s t now opts st msg hrun]
        rw [hfs]
        exact ⟨hsrc f, hrd⟩

/-- C9: The aggregate integrity flag can never report failure — every
successful migration with integrity checks enabled returns a report whose
`allChecksPassed` field is the constant true. -/
theorem integrity_flag_always_true (fs : Fs) (s t : FsPath) (w : Bool) (now : Nat)
    (opts : MigrationOptions)
    (hic : opts.enableIntegrityChecks = true)
    (h : (performMockMigration fs s t w now opts).1.success = true) :
    ∃ ic, (performMockMigration fs s t w now opts).1.integrityChecks = some ic
      ∧ ic.allChecksPassed = true := by
  have hw := performMockMigration_success_writable fs s t w now opts h
  subst hw
  cases hrun : migrateFiles opts s t now (readdirFs fs s) ⟨fs, [], []⟩ with
  | mk st e =>
    cases e with
    | some msg =>
      rw [performMockMigration_eq_of_err fs s t now opts st msg hrun] at h
      simp at h
    | none =>
      refine ⟨{ fileCount := st.migratedFiles.length, allChecksPassed := true,
                checksums := st.checksums }, ?_, rfl⟩
      rw [performMockMigration_eq_of_run fs s t now opts st hrun]
      simp [hic]

/-- C10: A failed migration result carries no descriptor and no report —
whenever `performMockMigration` returns success=false (permission failure
or an exception mid-pass), the result contains neither `rollbackInfo` nor
`integrityChecks`, even when they were requested. -/
theorem failed_migration_has_no_reports (fs : Fs) (s t : FsPath) (w : Bool) (now : Nat)
    (opts : MigrationOptions)
    (h : (performMockMigration fs s t w now opts).1.success = false) :
    (performMockMigration fs s t w now opts).1.rollbackInfo = none
    ∧ (performMockMigration fs s t w now opts).1.integrityChecks = none := by
  cases w with
  | false => exact ⟨rfl, rfl⟩
  | true =>
    cases hrun : migrateFiles opts s t now (readdirFs fs s) ⟨fs, [], []⟩ with
    | mk st e =>
      cases e with
      | none =>
        rw [performMockMigration_eq_of_run fs s t now opts st hrun] at h
        simp at h
      | some msg =>
        rw [performMockMigration_eq_of_err fs s t now opts st msg hrun]
        exact ⟨rfl, rfl⟩

/-! ### Witnesses -/

/-- Witness for C1 at a one-file source and an empty target. -/
theorem migration_idempotent_witness :
    (performMockMigration [(["s", "a"], Node.file "x" 1 2)] ["s"] ["t"] true 3
        { createRollbackInfo := true }).1.success = true
    ∧ ((performMockMigration
          (performMockMigration [(["s", "a"], Node.file "x" 1 2)] ["s"] ["t"] true 3
            { createRollbackInfo := true }).2 ["s"] ["t"] true 4
          { createRollbackInfo := true }).2
        = (performMockMigration [(["s", "a"], Node.file "x" 1 2)] ["s"] ["t"] true 3
            { createRollbackInfo := true }).2
      ∧ (performMockMigration
          (performMockMigration [(["s", "a"], Node.file "x" 1 2)] ["s"] ["t"] true 3
            { createRollbackInfo := true }).2 ["s"] ["t"] true 4
          { createRollbackInfo := true }).1.success = true
      ∧ (performMockMigration
          (performMockMigration [(["s", "a"], Node.file "x" 1 2)] ["s"] ["t"] true 3
            { createRollbackInfo := true }).2 ["s"] ["t"] true 4
          { createRollbackInfo := true }).1.rollbackInfo
        = some { sourceDir := ["s"], targetDir := ["t"], migratedFiles := [],
                 timestamp := toString 4 }) :=
  ⟨by decide,
   migration_idempotent [(["s", "a"], Node.file "x" 1 2)] ["s"] ["t"] true 3 4
     { createRollbackInfo := true } (by decide)⟩

/-- Witness for C2: the target's previous different content is overwritten
with the source content. -/
theorem migration_target_matches_source_witness :
    lookupFs [(["s", "a"], Node.file "new" 0 0), (["t", "a"], Node.file "old" 0 0)]
        (["s"] ++ ["a"]) = some (Node.file "new" 0 0)
    ∧ (performMockMigration [(["s", "a"], Node.file "new" 0 0), (["t", "a"], Node.file "old" 0 0)]
        ["s"] ["t"] true 5 {}).1.success = true
    ∧ ∃ c2 a2 m2,
        lookupFs (performMockMigration
            [(["s", "a"], Node.file "new" 0 0), (["t", "a"], Node.file "old" 0 0)]
            ["s"] ["t"] true 5 {}).2 (["t"] ++ ["a"])
          = some (Node.file c2 a2 m2)
        ∧ c2 = "new" ∧ calculateMockChecksum c2 = calculateMockChecksum "new" :=
  ⟨by decide, by decide,
   migration_target_matches_source
     [(["s", "a"], Node.file "new" 0 0), (["t", "a"], Node.file "old" 0 0)]
     ["s"] ["t"] true 5 {} "a" "new" 0 0 (by decide) (by decide)⟩

/-- Witness for C4 (amended) at a source with one skipped and one written
file: `fileCount` is 1 while both files receive checksum entries. -/
theorem integrity_report_contents_witness :
    ({ enableIntegrityChecks := true } : MigrationOptions).enableIntegrityChecks = true
    ∧ lookupFs [(["s", "a"], Node.file "x" 0 0), (["s", "b"], Node.file "y" 0 0),
          (["t", "a"], Node.file "x" 0 0)] (["s"] ++ ["a"]) = some (Node.file "x" 0 0)
    ∧ (performMockMigration
        [(["s", "a"], Node.file "x" 0 0), (["s", "b"], Node.file "y" 0 0),
          (["t", "a"], Node.file "x" 0 0)]
        ["s"] ["t"] true 0 { enableIntegrityChecks := true }).1.success = true
    ∧ ∃ ic, (performMockMigration
          [(["s", "a"], Node.file "x" 0 0), (["s", "b"], Node.file "y" 0 0),
            (["t", "a"], Node.file "x" 0 0)]
          ["s"] ["t"] true 0 { enableIntegrityChecks := true }).1.integrityChecks = some ic
        ∧ ic.allChecksPassed = true
        ∧ ic.fileCount = (migrateFiles { enableIntegrityChecks := true } ["s"] ["t"] 0
            (readdirFs [(["s", "a"], Node.file "x" 0 0), (["s", "b"], Node.file "y" 0 0),
              (["t", "a"], Node.file "x" 0 0)] ["s"])
            { fs := [(["s", "a"], Node.file "x" 0 0), (["s", "b"], Node.file "y" 0 0),
                (["t", "a"], Node.file "x" 0 0)],
              migratedFiles := [], checksums := [] }).1.migratedFiles.length
        ∧ lookupMap ic.checksums "a" = some (calculateMockChecksum "x") :=
  ⟨by decide, by decide, by decide,
   integrity_report_contents
     [(["s", "a"], Node.file "x" 0 0), (["s", "b"], Node.file "y" 0 0),
       (["t", "a"], Node.file "x" 0 0)]
     ["s"] ["t"] true 0 { enableIntegrityChecks := true } "a" "x" 0 0
     (by decide) (by decide) (by decide)⟩

/-- Witness for C5: rolling back descriptor `["a"]` deletes `t/a` and
leaves the unrelated pre-existing `t/keep` untouched. -/
theorem rollback_removes_exactly_listed_witness :
    (["t", "keep"] : FsPath) ∉ List.map
        (fun g => (["t"] : FsPath) ++ [g]) (["a"] : List String)
    ∧ "a" ∈ (["a"] : List String)
    ∧ (performMockRollback [(["t", "a"], Node.file "x" 0 0), (["t", "keep"], Node.file "k" 0 0)]
        { sourceDir := ["s"], targetDir := ["t"], migratedFiles := ["a"],
          timestamp := "ts" }).1.success = true
    ∧ (lookupFs (performMockRollback
          [(["t", "a"], Node.file "x" 0 0), (["t", "keep"], Node.file "k" 0 0)]
          { sourceDir := ["s"], targetDir := ["t"], migratedFiles := ["a"],
            timestamp := "ts" }).2 ["t", "keep"]
        = lookupFs [(["t", "a"], Node.file "x" 0 0), (["t", "keep"], Node.file "k" 0 0)]
            ["t", "keep"]
      ∧ lookupFs (performMockRollback
          [(["t", "a"], Node.file "x" 0 0), (["t", "keep"], Node.file "k" 0 0)]
          { sourceDir := ["s"], targetDir := ["t"], migratedFiles := ["a"],
            timestamp := "ts" }).2 (["t"] ++ ["a"]) = none) :=
  ⟨by decide, by decide, by decide,
   rollback_removes_exactly_listed
     [(["t", "a"], Node.file "x" 0 0), (["t", "keep"], Node.file "k" 0 0)]
     { sourceDir := ["s"], targetDir := ["t"], migratedFiles := ["a"], timestamp := "ts" }
     ["t", "keep"] "a" (by decide) (by decide) (by decide)⟩

/-- Witness for C6 at a descriptor listing one existing and one already
absent file: both the success condition and the idempotence implication. -/
theorem rollback_success_iff_gone_and_idempotent_witness :
    ((performMockRollback [(["t", "a"], Node.file "x" 0 0)]
        { sourceDir := ["s"], targetDir := ["t"], migratedFiles := ["a", "gone"],
          timestamp := "ts" }).1.success
      = (["a", "gone"] : List String).all
          (fun f => !existsFs (performMockRollback [(["t", "a"], Node.file "x" 0 0)]
              { sourceDir := ["s"], targetDir := ["t"], migratedFiles := ["a", "gone"],
                timestamp := "ts" }).2 ((["t"] : FsPath) ++ [f])))
    ∧ ((performMockRollback [(["t", "a"], Node.file "x" 0 0)]
        { sourceDir := ["s"], targetDir := ["t"], migratedFiles := ["a", "gone"],
          timestamp := "ts" }).1.success = true →
      performMockRollback (performMockRollback [(["t", "a"], Node.file "x" 0 0)]
          { sourceDir := ["s"], targetDir := ["t"], migratedFiles := ["a", "gone"],
            timestamp := "ts" }).2
          { sourceDir := ["s"], targetDir := ["t"], migratedFiles := ["a", "gone"],
            timestamp := "ts" }
        = ({ success := true, error := none, rollbackInfo := none, integrityChecks := none },
           (performMockRollback [(["t", "a"], Node.file "x" 0 0)]
              { sourceDir := ["s"], targetDir := ["t"], migratedFiles := ["a", "gone"],
                timestamp := "ts" }).2)) :=
  rollback_success_iff_gone_and_idempotent [(["t", "a"], Node.file "x" 0 0)]
    { sourceDir := ["s"], targetDir := ["t"], migratedFiles := ["a", "gone"],
      timestamp := "ts" }

/-- Witness for C7 at a source whose single file is already migrated: the
descriptor's migrated-file list excludes the skipped file. -/
theorem rollback_descriptor_lists_written_witness :
    ({ createRollbackInfo := true } : MigrationOptions).createRollbackInfo = true
    ∧ (performMockMigration [(["s", "a"], Node.file "x" 0 0), (["t", "a"], Node.file "x" 0 0)]
        ["s"] ["t"] true 9 { createRollbackInfo := true }).1.success = true
    ∧ ∃ info, (performMockMigration
          [(["s", "a"], Node.file "x" 0 0), (["t", "a"], Node.file "x" 0 0)]
          ["s"] ["t"] true 9 { createRollbackInfo := true }).1.rollbackInfo = some info
        ∧ info.sourceDir = ["s"] ∧ info.targetDir = ["t"] ∧ info.timestamp = toString 9
        ∧ ("a" ∈ info.migratedFiles ↔
            ("a" ∈ readdirFs [(["s", "a"], Node.file "x" 0 0), (["t", "a"], Node.file "x" 0 0)]
                ["s"]
              ∧ writeNeeded [(["s", "a"], Node.file "x" 0 0), (["t", "a"], Node.file "x" 0 0)]
                  ["s"] ["t"] "a" = true)) :=
  ⟨by decide, by decide,
   rollback_descriptor_lists_written
     [(["s", "a"], Node.file "x" 0 0), (["t", "a"], Node.file "x" 0 0)]
     ["s"] ["t"] true 9 { createRollbackInfo := true } "a" (by decide) (by decide)⟩

/-- Witness for C9 at a one-file source with integrity checks enabled. -/
theorem integrity_flag_always_true_witness :
    ({ enableIntegrityChecks := true } : MigrationOptions).enableIntegrityChecks = true
    ∧ (performMockMigration [(["s", "a"], Node.file "hi" 0 0)] ["s"] ["t"] true 0
        { enableIntegrityChecks := true }).1.success = true
    ∧ ∃ ic, (performMockMigration [(["s", "a"], Node.file "hi" 0 0)] ["s"] ["t"] true 0
          { enableIntegrityChecks := true }).1.integrityChecks = some ic
        ∧ ic.allChecksPassed = true :=
  ⟨by decide, by decide,
   integrity_flag_always_true [(["s", "a"], Node.file "hi" 0 0)] ["s"] ["t"] true 0
     { enableIntegrityChecks := true } (by decide) (by decide)⟩

/-- Witness for C10 at a permission-denied invocation that had requested
both a rollback descriptor and an integrity report. -/
theorem failed_migration_has_no_reports_witness :
    (performMockMigration [(["s", "a"], Node.file "x" 0 0)] ["s"] ["t"] false 0
        { createRollbackInfo := true, enableIntegrityChecks := true }).1.success = false
    ∧ ((performMockMigration [(["s", "a"], Node.file "x" 0 0)] ["s"] ["t"] false 0
          { createRollbackInfo := true, enableIntegrityChecks := true }).1.rollbackInfo = none
      ∧ (performMockMigration [(["s", "a"], Node.file "x" 0 0)] ["s"] ["t"] false 0
          { createRollbackInfo := true, enableIntegrityChecks := true }).1.integrityChecks
        = none) :=
  ⟨by decide,
   failed_migration_has_no_reports [(["s", "a"], Node.file "x" 0 0)] ["s"] ["t"] false 0
     { createRollbackInfo := true, enableIntegrityChecks := true } (by decide)⟩

end MigrationTool
